import Mathlib

/-!
Verification of the command-line-assistant daemon/client core against its
natural-language specification.  The Python source is shallowly embedded:
pure functions become Lean functions, stateful code becomes explicit state
passing, Python exceptions become `Except`, and machine behaviour that the
claims depend on (urllib3 retries, Python string/list primitives) is embedded
from its documented semantics.  Components of the repository that are not
present under the source tree (the `LocalHistory` plugin, the database models
and the `UserSessionManager`) are modelled from the specification and marked
as such in their doc comments.
-/

/-! ## Python string and list primitives -/

/-- Python truthiness of a string: non-empty strings are truthy. -/
def strTruthy (s : String) : Bool := s != ""

/-- First-match lookup in an association list, like indexing a Python dict
whose insertion kept the first occurrence of each key. -/
def lookupFirst {α : Type} (l : List (String × α)) (k : String) : Option α :=
  match l with
  | [] => none
  | (k', v) :: rest => if k' == k then some v else lookupFirst rest k

/-! ## Input composition (client, `commands/chat.py`) -/

/-- Embedding of `BaseChatQuestionOperation._get_input_source`
(`src/command_line_assistant/commands/chat.py`, lines 181-245).  The four
inputs are the positional query, piped stdin, the attachment contents and the
resolved terminal output; an empty string is an absent source, exactly as
Python truthiness treats it.  The `Bool` in the result records whether the
warning renderer was invoked; `Except.error` is the `ValueError` branch. -/
def get_input_source (query stdin attachment last_output : String) :
    Except String (String × Bool) :=
  -- Rule 99: All four present - positional and file take precedence
  if strTruthy query && strTruthy stdin && strTruthy attachment && strTruthy last_output then
    .ok (query ++ " " ++ attachment, true)
  -- Rule 8: positional + attachment + last output
  else if strTruthy query && strTruthy attachment && strTruthy last_output then
    .ok (query ++ " " ++ attachment ++ " " ++ last_output, false)
  -- Rule 7: positional + last_output
  else if strTruthy query && strTruthy last_output then
    .ok (query ++ " " ++ last_output, false)
  -- Rule 6: Positional + file
  else if strTruthy query && strTruthy attachment then
    .ok (query ++ " " ++ attachment, false)
  -- Rule 5: Stdin + file
  else if strTruthy stdin && strTruthy attachment then
    .ok (stdin ++ " " ++ attachment, false)
  -- Rule 4: Stdin + positional
  else if strTruthy stdin && strTruthy query then
    .ok (query ++ " " ++ stdin, false)
  -- Rules 1-3: Single source - return first non-empty source
  else
    match [query, stdin, attachment, last_output].find? strTruthy with
    | some source => .ok (source, false)
    | none =>
      .error ("No input provided. Please provide input via file, stdin, or direct query.")

/-- Input-composition rules exactly as the specification's section 4.11 words
them, used as the comparison point for the refinement claim C7.  Written from
the spec's rule list, not from the source. -/
def spec_input_source (query stdin attachment last_output : String) :
    Except String (String × Bool) :=
  let present := fun (s : String) => s != ""
  if present query && present stdin && present attachment && present last_output then
    .ok (query ++ " " ++ attachment, true)
  else if present query && present attachment && present last_output then
    .ok (query ++ " " ++ attachment ++ " " ++ last_output, false)
  else if present query && present last_output then
    .ok (query ++ " " ++ last_output, false)
  else if present query && present attachment then
    .ok (query ++ " " ++ attachment, false)
  else if present stdin && present attachment then
    .ok (stdin ++ " " ++ attachment, false)
  else if present stdin && present query then
    .ok (query ++ " " ++ stdin, false)
  else if present query then .ok (query, false)
  else if present stdin then .ok (stdin, false)
  else if present attachment then .ok (attachment, false)
  else if present last_output then .ok (last_output, false)
  else
    .error ("No input provided. Please provide input via file, stdin, or direct query.")

/-! ## Terminal output indexing (`terminal/parser.py`) -/

/-- Exceptions that `find_output_by_index` catches. -/
inductive PyLookupErr : Type
  | indexError : PyLookupErr
  | keyError : PyLookupErr
deriving DecidableEq

/-- CPython list subscript semantics: a negative index is first normalized by
adding the length, then bounds are checked and `IndexError` raised outside
them. -/
def pyListGetItem {α : Type} (xs : List α) (i : Int) : Except PyLookupErr α :=
  let j : Int := if i < 0 then i + xs.length else i
  if h : 0 ≤ j ∧ j.toNat < xs.length then .ok (xs.get ⟨j.toNat, h.2⟩)
  else .error .indexError

/-- CPython dict subscript semantics over an association-list model of the
parsed JSON blocks: a missing key raises `KeyError`. -/
def pyDictGetItem {α : Type} (d : List (String × α)) (k : String) :
    Except PyLookupErr α :=
  match lookupFirst d k with
  | some v => .ok v
  | none => .error .keyError

/-- Embedding of `find_output_by_index`
(`src/command_line_assistant/terminal/parser.py`, lines 42-46): index the
block list, read the block's output field, and turn `IndexError` or
`KeyError` into the empty string. -/
def find_output_by_index (index : Int) (output : List (List (String × String))) :
    String :=
  match pyListGetItem output index >>= fun block => pyDictGetItem block ("output") with
  | .ok v => v
  | .error _ => ""

/-- Specification-level view of Python list indexing used to state claim C9:
`some` exactly when the (possibly negative) index designates an element. -/
def pyListGet? {α : Type} (xs : List α) (i : Int) : Option α :=
  if 0 ≤ i then xs.get? i.toNat
  else if i.natAbs ≤ xs.length then xs.get? (xs.length - i.natAbs)
  else none

/-! ## HTTP submitter (`daemon/http/query.py`, `daemon/http/adapters.py`)

The session returned by `get_session` (daemon/http/session.py, not under the
source tree) mounts the `RetryAdapter`; per the specification's section 4.2
the retry/backoff policy of that adapter governs every `submit`.  urllib3's
`Retry` is embedded from its documented semantics: `total` counts retries
(so `total = 3` allows one initial attempt plus three retries), a retry
happens on connection errors and on statuses in the `status_forcelist`, and
the sleep before the n-th retry is `0` for `n = 1` and
`backoff_factor * 2 ^ (n - 1)` afterwards. -/

/-- A JSON value, as far as the submit path inspects one. -/
inductive JVal : Type
  | jstr : String → JVal
  | jobj : List (String × JVal) → JVal

/-- Python `dict.get(key, default)` on an object-valued JSON body. -/
def jsonGet (fields : List (String × JVal)) (k : String) (d : JVal) : JVal :=
  (lookupFirst fields k).getD d

/-- What the backend does on one HTTP attempt: a transport-level failure
(`requests.ConnectionError` and friends) or a response with a status code and
an already-decoded JSON object body. -/
inductive AttemptOutcome : Type
  | netErr : AttemptOutcome
  | resp : Nat → List (String × JVal) → AttemptOutcome

/-- Statuses in the `RetryAdapter`'s `status_forcelist`
(`src/command_line_assistant/daemon/http/adapters.py`, line 34). -/
def statusForcelist : List Nat := [502, 503, 504]

/-- Whether urllib3 retries after this outcome: always on network errors,
and on responses whose status is in the forcelist. -/
def retryableOutcome : AttemptOutcome → Bool
  | .netErr => true
  | .resp s _ => statusForcelist.contains s

/-- Sleep, in milliseconds, before retry number `n` (1-based), for
`backoff_factor = 0.1`: urllib3 sleeps `0` before the first retry and
`backoff_factor * 2 ^ (n - 1)` before later ones. -/
def backoffMs (n : Nat) : Nat :=
  if n ≤ 1 then 0 else 100 * 2 ^ (n - 1)

/-- Result of the mounted session's `post`: a response handed back to
`submit`, or a `RequestException` (connection error or `MaxRetryError` once
retries are exhausted). -/
inductive PostResult : Type
  | response : Nat → List (String × JVal) → PostResult
  | exn : PostResult

/-- Result handed back when urllib3 does not retry: the response itself, or
the raised connection error. -/
def finishOutcome : AttemptOutcome → PostResult
  | .netErr => .exn
  | .resp s body => .response s body

/-- One run of `session.post` under the `RetryAdapter`: `backend n` is the
outcome of attempt `n` (0-based), `retriesLeft` the remaining `total` budget.
Returns the result, the number of attempts made and the list of backoff
sleeps (ms).  `retryNum` is the 1-based number of the next retry, used for
the backoff computation. -/
def postWithRetry (backend : Nat → AttemptOutcome) :
    Nat → Nat → Nat → PostResult × Nat × List Nat
  | attempt, retriesLeft, retryNum =>
    if retryableOutcome (backend attempt) then
      match retriesLeft with
      | 0 => (.exn, 1, [])
      | r + 1 =>
        let rest := postWithRetry backend (attempt + 1) r (retryNum + 1)
        (rest.1, rest.2.1 + 1, backoffMs retryNum :: rest.2.2)
    else (finishOutcome (backend attempt), 1, [])

/-- Outcome of `submit`. -/
inductive SubmitResult : Type
  | ok : JVal → SubmitResult
  | requestFailed : String → SubmitResult

/-- The literal user-visible failure message raised by `submit`. -/
def requestFailedMessage : String :=
  "There was a problem communicating with the server. Please, try again in a few minutes."

/-- Embedding of `submit` (`src/command_line_assistant/daemon/http/query.py`,
lines 15-45): post the payload with the retry adapter, call
`raise_for_status` (statuses 400-599 raise, and are turned into
`RequestFailedError` by the `except RequestException` clause), then read
`data.get("data", {}).get("text", "")` from the body.  Returns the result
together with the attempt count and backoff sleeps of the underlying run. -/
def submit (backend : Nat → AttemptOutcome) : SubmitResult × Nat × List Nat :=
  match postWithRetry backend 0 3 1 with
  | (.exn, n, bs) => (.requestFailed requestFailedMessage, n, bs)
  | (.response s body, n, bs) =>
    if 400 ≤ s ∧ s < 600 then (.requestFailed requestFailedMessage, n, bs)
    else
      match jsonGet body ("data") (.jobj []) with
      | .jobj dataFields => (.ok (jsonGet dataFields ("text") (.jstr "")), n, bs)
      | .jstr other => (.ok (.jstr other), n, bs)

/-- Backend that replies 503 three times, then 200 with
`\x7b"data": \x7b"text": "ok"\x7d\x7d`. -/
def backend503x3then200 : Nat → AttemptOutcome := fun n =>
  if n < 3 then .resp 503 []
  else .resp 200 [(("data"), .jobj [(("text"), .jstr ("ok"))])]

/-- Backend that replies 503 on every attempt. -/
def backend503always : Nat → AttemptOutcome := fun _ => .resp 503 []

/-- Backend that replies 404 immediately. -/
def backend404 : Nat → AttemptOutcome := fun _ => .resp 404 []

/-- The retry loop makes at most one attempt more than its retry budget. -/
theorem postWithRetry_attempt_bound (backend : Nat → AttemptOutcome) :
    ∀ retriesLeft attempt retryNum,
      (postWithRetry backend attempt retriesLeft retryNum).2.1 ≤ retriesLeft + 1 := by
  intro retriesLeft
  induction retriesLeft with
  | zero =>
    intro attempt retryNum
    unfold postWithRetry
    by_cases hr : retryableOutcome (backend attempt) = true <;> simp [hr]
  | succ r ih =>
    intro attempt retryNum
    unfold postWithRetry
    by_cases hr : retryableOutcome (backend attempt) = true
    · simpa [hr] using Nat.add_le_add_right (ih (attempt + 1) (retryNum + 1)) 1
    · simp [hr]

/-- A non-retryable response ends the retry loop on its first attempt. -/
theorem postWithRetry_no_retry (backend : Nat → AttemptOutcome)
    (attempt retriesLeft retryNum s : Nat) (body : List (String × JVal))
    (h : backend attempt = .resp s body)
    (hs : retryableOutcome (.resp s body) = false) :
    postWithRetry backend attempt retriesLeft retryNum = (.response s body, 1, []) := by
  unfold postWithRetry
  rw [h]
  simp [hs, finishOutcome]

/-- C2 counterexample.  The claim asserts both that `submit` makes at most 3
total HTTP attempts and that a backend replying 503 three times and then 200
yields one successful reply; on that very backend the `RetryAdapter`
(`Retry(total=3)`, one initial attempt plus three retries) makes 4 attempts
before the success, so the attempt bound of the claim is false. -/
theorem c2_three_attempts_counterexample :
    (submit backend503x3then200).2.1 = 4 ∧
      ¬ (submit backend503x3then200).2.1 ≤ 3 := by
  constructor <;> decide

/-- When the first outcome is not retryable, `submit` makes exactly one
attempt. -/
theorem submit_attempts_one (backend : Nat → AttemptOutcome) (s : Nat)
    (body : List (String × JVal)) (hb : backend 0 = .resp s body)
    (hs : retryableOutcome (.resp s body) = false) :
    (submit backend).2.1 = 1 ∧ (submit backend).2.2 = [] := by
  unfold submit
  rw [postWithRetry_no_retry backend 0 3 1 s body hb hs]
  by_cases hc : 400 ≤ s ∧ s < 600
  · simp [hc]
  · cases hj : jsonGet body ("data") (.jobj []) with
    | jobj dataFields => simp [hc, hj]
    | jstr other => simp [hc, hj]

/-- C2 (amended): `submit` makes at most 4 total HTTP attempts (one initial
plus up to 3 retries); a second attempt happens only when the first outcome
is retryable (a network error or a status in 502, 503, 504); a response with
a status outside the forcelist is never retried and, when it is a 4xx (or any
status in 400-599), surfaces as `RequestFailed` with the literal message; a
backend replying 503 three times then 200 yields one successful reply after
backoff sleeps of 0 ms, 200 ms and 400 ms, while four consecutive 503s yield
`RequestFailed`. -/
theorem c2_retry_policy_amended :
    (∀ backend : Nat → AttemptOutcome, (submit backend).2.1 ≤ 4)
    ∧ (∀ backend : Nat → AttemptOutcome, 1 < (submit backend).2.1 →
        retryableOutcome (backend 0) = true)
    ∧ (∀ (backend : Nat → AttemptOutcome) (s : Nat) (body : List (String × JVal)),
        backend 0 = .resp s body → statusForcelist.contains s = false →
        (submit backend).2.1 = 1 ∧
          (400 ≤ s → s < 600 →
            (submit backend).1 = .requestFailed requestFailedMessage))
    ∧ submit backend503x3then200 = (.ok (.jstr ("ok")), 4, [0, 200, 400])
    ∧ submit backend503always = (.requestFailed requestFailedMessage, 4, [0, 200, 400]) := by
  refine ⟨?_, ?_, ?_, rfl, rfl⟩
  · intro backend
    have h := postWithRetry_attempt_bound backend 3 0 1
    unfold submit
    rcases hp : postWithRetry backend 0 3 1 with ⟨res, n, bs⟩
    rw [hp] at h
    cases res with
    | exn => simpa using h
    | response s body =>
      by_cases hc : 400 ≤ s ∧ s < 600
      · simpa [hc] using h
      · cases hj : jsonGet body ("data") (.jobj []) with
        | jobj dataFields => simpa [hc, hj] using h
        | jstr other => simpa [hc, hj] using h
  · intro backend h
    by_contra hfalse
    cases hb : backend 0 with
    | netErr => rw [hb] at hfalse; simp [retryableOutcome] at hfalse
    | resp s body =>
      rw [hb] at hfalse
      have hs : retryableOutcome (.resp s body) = false := by
        simpa using hfalse
      have h1 := (submit_attempts_one backend s body hb hs).1
      omega
  · intro backend s body hb hs
    have hs' : retryableOutcome (.resp s body) = false := hs
    refine ⟨(submit_attempts_one backend s body hb hs').1, ?_⟩
    intro h4 h6
    unfold submit
    rw [postWithRetry_no_retry backend 0 3 1 s body hb hs']
    simp [h4, h6]

/-- C2 witness: the amended theorem applied to the backend that replies 404
at once — one attempt, no retry, and the literal `RequestFailed` message. -/
theorem c2_retry_policy_amended_witness :
    (submit backend404).2.1 = 1 ∧
      (submit backend404).1 = .requestFailed requestFailedMessage := by
  have h := c2_retry_policy_amended.2.2.1 backend404 404 [] rfl (by decide)
  exact ⟨h.1, h.2 (by decide) (by decide)⟩

/-- Helper: Python list subscript agrees with the specification-level indexing
view `pyListGet?`. -/
theorem pyListGetItem_eq {α : Type} (xs : List α) (i : Int) :
    pyListGetItem xs i = (match pyListGet? xs i with
      | some v => .ok v
      | none => .error .indexError) := by
  unfold pyListGetItem pyListGet?
  by_cases hneg : i < 0
  · have h0 : ¬ 0 ≤ i := by omega
    simp only [if_pos hneg, if_neg h0]
    by_cases hin : i.natAbs ≤ xs.length
    · have hcond : 0 ≤ i + xs.length ∧ (i + xs.length).toNat < xs.length := by
        constructor <;> omega
      rw [dif_pos hcond]
      have hidx : (i + xs.length).toNat = xs.length - i.natAbs := by omega
      have hlt : xs.length - i.natAbs < xs.length := by omega
      simp only [if_pos hin]
      rw [List.get?_eq_get hlt]
      simp [hidx]
    · have hcond : ¬ (0 ≤ i + xs.length ∧ (i + xs.length).toNat < xs.length) := by
        intro h
        omega
      rw [dif_neg hcond]
      simp [hin]
  · have h0 : 0 ≤ i := by omega
    simp only [if_neg hneg, if_pos h0]
    by_cases hlt : i.toNat < xs.length
    · rw [dif_pos ⟨h0, hlt⟩, List.get?_eq_get hlt]
    · have hcond : ¬ (0 ≤ i ∧ i.toNat < xs.length) := fun h => hlt h.2
      rw [dif_neg hcond, List.get?_eq_none.2 (by omega)]

/-- C9: `find_output_by_index` is total.  For every integer index and block
list it returns the output field of the designated block (negative indices
count from the end) when that block exists and carries the key, and the empty
string — never an exception — when the index is out of range or the block has
no output key. -/
theorem c9_find_output_total (index : Int) (output : List (List (String × String))) :
    find_output_by_index index output =
      (match pyListGet? output index with
       | none => ""
       | some block => (lookupFirst block ("output")).getD "") := by
  unfold find_output_by_index
  rw [pyListGetItem_eq]
  rcases hg : pyListGet? output index with _ | block
  · rfl
  · simp only []
    unfold pyDictGetItem
    rcases hl : lookupFirst block ("output") with _ | v <;> simp [Bind.bind, Except.bind, hl]

/-- C7: the client's input composition agrees, on every combination of query,
stdin, attachment and terminal output (empty string meaning absent), with the
specification's precedence rules of section 4.11, including the
stdin-is-ignored warning in the all-four case and the `ValueError` with the
literal message when no source is given. -/
theorem c7_input_source_refinement (query stdin_q attachment last_output : String) :
    get_input_source query stdin_q attachment last_output =
      spec_input_source query stdin_q attachment last_output := by
  unfold get_input_source spec_input_source strTruthy
  by_cases hq : query != "" <;> by_cases hs : stdin_q != "" <;>
    by_cases ha : attachment != "" <;> by_cases ht : last_output != "" <;>
      simp [hq, hs, ha, ht, List.find?]

/-! ## Data model (daemon database)

The SQLAlchemy models under `daemon/database/models/history.py` are not under
the source tree; the row shapes below are reconstructed from their uses in
`HistoryRepository` (`select_by_chat_id` filters on `chat_id` and
`deleted_at`, `select_all_history` on `user_id`, `deleted_at` and
`created_at`, and the interface layer reads `.interactions`, `.question`,
`.response`, `.created_at` of the rows) and from the specification's
section 3 data model.  Timestamps are modelled as naturals. -/

/-- One stored question/response pair. -/
structure InteractionModel where
  question : String
  response : String
  created_at : Nat
  deleted_at : Option Nat
deriving DecidableEq

/-- One history row: the container of a chat's interactions. -/
structure HistoryModel where
  user_id : String
  chat_id : String
  created_at : Nat
  deleted_at : Option Nat
  interactions : List InteractionModel
deriving DecidableEq

/-- The history table. -/
structure Db where
  histories : List HistoryModel
deriving DecidableEq

/-- Stable insertion step for sorting history rows ascending by
`created_at`. -/
def insertByCreated (a : HistoryModel) : List HistoryModel → List HistoryModel
  | [] => [a]
  | x :: xs =>
    if x.created_at < a.created_at then x :: insertByCreated a xs
    else a :: x :: xs

/-- Stable ascending sort by `created_at`, modelling `ORDER BY asc(created_at)`. -/
def sortByCreated (l : List HistoryModel) : List HistoryModel :=
  l.foldr insertByCreated []

/-- Embedding of `HistoryRepository.select_all_history`
(`src/command_line_assistant/daemon/database/repository/history.py`, lines
46-63): the user's rows with `deleted_at IS NULL`, ordered ascending by
`created_at`. -/
def select_all_history (db : Db) (user_id : String) : List HistoryModel :=
  sortByCreated
    (db.histories.filter (fun h => h.deleted_at == none && h.user_id == user_id))

/-- Modelled from the spec: the `LocalHistory` plugin
(`command_line_assistant/history/plugins/local.py`) is not under the source
tree.  Its `read(user_id)` returns the user's history rows — the
`list[HistoryModel]` that `HistoryManager.read` hands to the interface layer —
via the repository's `select_all_history` (specification section 4.6: reads
return the user's interactions). -/
def localHistoryRead (db : Db) (user_id : String) : List HistoryModel :=
  select_all_history db user_id

/-- Append an interaction to the first live history row of the chat, if one
exists. -/
def appendToChatRow (cid : String) (it : InteractionModel) :
    List HistoryModel → Option (List HistoryModel)
  | [] => none
  | h :: rest =>
    if h.deleted_at == none && h.chat_id == cid then
      some ({ h with interactions := h.interactions ++ [it] } :: rest)
    else (appendToChatRow cid it rest).map (fun hs => h :: hs)

/-- Modelled from the spec: `LocalHistory.write(chat_id, user_id, query,
response)` is not under the source tree.  Per specification section 4.1
(`interactions.insert(chat_id, question, response)`) it persists one
question/response pair for the chat, appending to the chat's live history
row — the row shape `HistoryRepository.select_by_chat_id` selects — or
creating that row first. -/
def localHistoryWrite (db : Db) (chat_id user_id question response : String)
    (now : Nat) : Db :=
  let it : InteractionModel := ⟨question, response, now, none⟩
  match appendToChatRow chat_id it db.histories with
  | some hs => ⟨hs⟩
  | none => ⟨db.histories ++ [⟨user_id, chat_id, now, none, [it]⟩]⟩

/-! ## D-Bus layer (`dbus/interfaces/history.py`, `dbus/interfaces/chat.py`,
`dbus/interfaces/authorization.py`, `dbus/interfaces/user.py`) -/

/-- The wire structure `HistoryEntry` (whose module
`dbus/structures/history.py` is not under the source tree; the field set is
the one `_parse_interactions` fills and the specification's section 4.6
names). -/
structure HistoryEntry where
  question : String
  response : String
  created_at : String
deriving DecidableEq

/-- Errors the embedded D-Bus methods can raise. -/
inductive DbusErr : Type
  | permissionDenied : String → DbusErr
  | historyNotAvailable : String → DbusErr
  | chatNotFound : String → DbusErr
  | requestFailed : String → DbusErr
deriving DecidableEq

/-- The HTTP payload `AskQuestion` builds
(`src/command_line_assistant/dbus/interfaces/chat.py`, lines 200-209). -/
structure AskPayload where
  question : String
  context_stdin : String
  attachments_contents : String
  attachments_mimetype : String
deriving DecidableEq

/-- Observable side effects of a method body: repository reads and writes,
the outbound HTTP request, and audit records. -/
inductive Effect : Type
  | dbRead : Effect
  | dbWrite : Effect
  | httpPost : AskPayload → Effect
  | auditLog : Effect
deriving DecidableEq

/-- Embedding of `_parse_interactions`
(`src/command_line_assistant/dbus/interfaces/history.py`, lines 149-175). -/
def parse_interactions (interactions : List InteractionModel) : List HistoryEntry :=
  interactions.map (fun i => ⟨i.question, i.response, toString i.created_at⟩)

/-- Does `needle` occur as a contiguous subsequence of the list? -/
def containsSeq (needle : List Char) : List Char → Bool
  | [] => needle.isEmpty
  | c :: rest => needle.isPrefixOf (c :: rest) || containsSeq needle rest

/-- Python substring containment, `keyword in s`: case-sensitive. -/
def pyIn (needle hay : String) : Bool := containsSeq needle.toList hay.toList

/-- Embedding of `_filter_history_with_keyword`
(`src/command_line_assistant/dbus/interfaces/history.py`, lines 178-196):
every interaction of every returned row whose question or response contains
the keyword, in row-then-interaction order. -/
def filter_history_with_keyword (entries : List HistoryModel) (keyword : String) :
    List InteractionModel :=
  ((entries.map (fun entry => entry.interactions)).flatten).filter
    (fun interaction =>
      pyIn keyword interaction.question || pyIn keyword interaction.response)

/-- Embedding of `HistoryInterface.GetHistory`
(`src/command_line_assistant/dbus/interfaces/history.py`, lines 40-56): read
the user's history rows, raise `HistoryNotAvailable` when there are none, and
otherwise return the interactions of `history_entries[0]` only.  The effect
list records the repository read performed by `HistoryManager.read`. -/
def HistoryInterface_GetHistory (db : Db) (user_id : String) :
    Except DbusErr (List HistoryEntry) × List Effect :=
  match localHistoryRead db user_id with
  | [] =>
    (.error (.historyNotAvailable ("Unfortunately, no history was found.")), [.dbRead])
  | first :: _ => (.ok (parse_interactions first.interactions), [.dbRead])

/-- Embedding of `HistoryInterface.GetFilteredConversation`
(`src/command_line_assistant/dbus/interfaces/history.py`, lines 95-117). -/
def HistoryInterface_GetFilteredConversation (db : Db) (user_id filter_kw : String) :
    Except DbusErr (List HistoryEntry) × List Effect :=
  let history_entries := localHistoryRead db user_id
  if history_entries.isEmpty then
    (.error (.historyNotAvailable ("Unfortunately, no history was found.")), [.dbRead])
  else
    (.ok (parse_interactions (filter_history_with_keyword history_entries filter_kw)),
      [.dbRead])

/-- Embedding of `HistoryInterface.WriteHistory`
(`src/command_line_assistant/dbus/interfaces/history.py`, lines 131-146):
persist the question/response pair through the history manager, then audit.
The write path reads the chat's row and inserts the interaction. -/
def HistoryInterface_WriteHistory (db : Db) (chat_id user_id question response : String)
    (now : Nat) : Db × List Effect :=
  (localHistoryWrite db chat_id user_id question response now,
    [.dbRead, .dbWrite, .auditLog])

/-- The bus daemon's view of callers: `GetConnectionUnixUser` as a partial
map from sender names to unix uids (`none` models a failed lookup). -/
structure Bus where
  uidOf : String → Option Nat

/-- Modelled from the spec: `UserSessionManager`
(`command_line_assistant/daemon/session.py`) is not under the source tree.
Per specification section 4.3, `get_user_id` maps an OS uid to the user's
stable internal uuid string. -/
structure Session where
  uuidOf : Nat → String

/-- Embedding of `DBusAuthorizationMixin._get_sender_unix_user_id`
(`src/command_line_assistant/dbus/interfaces/authorization.py`, lines 69-99):
ask the bus daemon for the sender's uid; on failure raise
`PermissionError("Failed to retrieve caller information")`. -/
def get_sender_unix_user_id (bus : Bus) (sender : String) : Except DbusErr Nat :=
  match bus.uidOf sender with
  | some uid => .ok uid
  | none => .error (.permissionDenied ("Failed to retrieve caller information"))

/-- Embedding of `DBusAuthorizationMixin._verify_unix_user_authorization`
(`src/command_line_assistant/dbus/interfaces/authorization.py`, lines
101-139): fail closed, deny on uid mismatch. -/
def verify_unix_user_authorization (bus : Bus) (sender : String)
    (requested_unix_user_id : Nat) : Except DbusErr Unit := do
  let sender_unix_id ← get_sender_unix_user_id bus sender
  if requested_unix_user_id ≠ sender_unix_id then
    .error (.permissionDenied ("Unix user ID mismatch: access denied"))
  else .ok ()

/-- Embedding of `DBusAuthorizationMixin._verify_internal_user_authorization`
(`src/command_line_assistant/dbus/interfaces/authorization.py`, lines
141-181): map the sender's uid to the internal uuid and deny on mismatch. -/
def verify_internal_user_authorization (bus : Bus) (session : Session)
    (sender : String) (requested_user_id : String) : Except DbusErr Unit := do
  let sender_unix_id ← get_sender_unix_user_id bus sender
  let sender_internal_id := session.uuidOf sender_unix_id
  if requested_user_id ≠ sender_internal_id then
    .error (.permissionDenied ("User UUID mismatch: access denied"))
  else .ok ()

/-- Embedding of `UserInterface.GetUserId`
(`src/command_line_assistant/dbus/interfaces/user.py`, lines 34-45), the one
method carrying the `require_user_authorization` decorator: verify the
sender's unix uid against `effective_user_id`, then return the internal
uuid. -/
def UserInterface_GetUserId (bus : Bus) (session : Session) (sender : String)
    (effective_user_id : Nat) : Except DbusErr String := do
  let _ ← verify_unix_user_authorization bus sender effective_user_id
  .ok (session.uuidOf effective_user_id)

/-- `HistoryInterface.GetHistory` as the bus dispatches it.  In the source
the method carries no `require_user_authorization` decorator and
`HistoryInterface` does not mix in `DBusAuthorizationMixin`, so the sender
(and hence the bus and session) is never consulted: the body runs for any
caller. -/
def dispatch_GetHistory (_bus : Bus) (_session : Session) (db : Db)
    (_sender : String) (user_id : String) :
    Except DbusErr (List HistoryEntry) × List Effect :=
  HistoryInterface_GetHistory db user_id

/-- The `Question` wire structure
(`src/command_line_assistant/dbus/structures/chat.py`): `message`, nested
`stdin.stdin` and `attachment.contents` / `attachment.mimetype`, here
flattened. -/
structure Question where
  message : String
  stdin_field : String
  attachment_contents : String
  attachment_mimetype : String
deriving DecidableEq

/-- Embedding of `ChatInterface.AskQuestion`
(`src/command_line_assistant/dbus/interfaces/chat.py`, lines 185-224): build
the payload from the question structure, submit it to the backend, audit on
success, and return the response.  The body performs no repository call:
`chat_id` and the database are untouched, which the returned state and
effect list record.  `RequestFailedError` from `submit` propagates
unchanged. -/
def ChatInterface_AskQuestion (db : Db) (backend : Nat → AttemptOutcome)
    (_chat_id _user_id : String) (message_input : Question) :
    Except DbusErr JVal × Db × List Effect :=
  let data : AskPayload :=
    ⟨message_input.message, message_input.stdin_field,
      message_input.attachment_contents, message_input.attachment_mimetype⟩
  match (submit backend).1 with
  | .requestFailed msg => (.error (.requestFailed msg), db, [.httpPost data])
  | .ok llm_response => (.ok llm_response, db, [.httpPost data, .auditLog])

/-! ## Concrete states for the evaluation theorems -/

/-- A bus on which sender `:1.42` is uid 1001. -/
def exBus : Bus := ⟨fun s => if s == ":1.42" then some 1001 else none⟩

/-- A session map under which uid 1000 owns `uuid-a` and every other uid maps
to `uuid-b`. -/
def exSession : Session := ⟨fun uid => if uid == 1000 then "uuid-a" else "uuid-b"⟩

/-- An interaction of user `uuid-a`'s first chat. -/
def interA : InteractionModel := ⟨"q1", "r1", 0, none⟩

/-- An interaction of user `uuid-a`'s second chat. -/
def interB : InteractionModel := ⟨"q2", "r2", 5, none⟩

/-- The history row of chat `chat-1`. -/
def rowA : HistoryModel := ⟨"uuid-a", "chat-1", 0, none, [interA]⟩

/-- The history row of chat `chat-2`. -/
def rowB : HistoryModel := ⟨"uuid-a", "chat-2", 3, none, [interB]⟩

/-- A database holding one chat of user `uuid-a`. -/
def exDb : Db := ⟨[rowA]⟩

/-- A database holding two live chats of user `uuid-a`, one live interaction
each. -/
def exDb2 : Db := ⟨[rowA, rowB]⟩

/-- Every stored interaction of the user's live rows, flattened in row order:
the specification-level reading of "all the user's live interactions,
ordered ascending". -/
def allLiveInteractions (db : Db) (user_id : String) : List InteractionModel :=
  ((select_all_history db user_id).map (fun h => h.interactions)).flatten

/-- A backend that replies 200 at once with `\x7b"data": \x7b"text": "ok"\x7d\x7d`. -/
def backend200ok : Nat → AttemptOutcome := fun _ =>
  .resp 200 [(("data"), .jobj [(("text"), .jstr ("ok"))])]

/-- C1: in the source, `HistoryInterface.GetHistory` (like the other chat and
history methods, and unlike `UserInterface.GetUserId`) performs no
authorization check: a caller whose bus uid (1001) maps to a user uuid other
than the requested `uuid-a` still gets `uuid-a`'s history back, and the
repository read is performed — where the claim demands `PermissionDenied`
with no database access. -/
theorem c1_gethistory_unauthorized_read :
    exBus.uidOf (":1.42") = some 1001
    ∧ exSession.uuidOf 1001 ≠ ("uuid-a")
    ∧ dispatch_GetHistory exBus exSession exDb (":1.42") ("uuid-a") =
        (.ok [⟨"q1", "r1", "0"⟩], [.dbRead]) := by
  refine ⟨rfl, by decide, rfl⟩

/-- C5: on a database holding two live chats of user `uuid-a` with one live
interaction each, `GetHistory` returns only the first (oldest) row's single
interaction, while the user's live interactions across all live chats number
two — contradicting the claim (and the method's own docstring, "Get all
conversations from history"). -/
theorem c5_gethistory_drops_later_chats :
    (HistoryInterface_GetHistory exDb2 ("uuid-a")).1 = .ok [⟨"q1", "r1", "0"⟩]
    ∧ allLiveInteractions exDb2 ("uuid-a") = [interA, interB]
    ∧ parse_interactions (allLiveInteractions exDb2 ("uuid-a")) =
        [⟨"q1", "r1", "0"⟩, ⟨"q2", "r2", "5"⟩] := by
  refine ⟨rfl, rfl, rfl⟩

/-- C6: `GetFilteredConversation` raises `HistoryNotAvailable` exactly when
the user has no history rows at all; otherwise it returns precisely the
interactions whose question or response contains the keyword as a
case-sensitive substring (`pyIn`), flattened in preserved order and without
collapsing duplicates — in particular a keyword matching nothing over
non-empty history yields `ok []`, not an error. -/
theorem c6_filtered_conversation (db : Db) (user_id keyword : String) :
    ((HistoryInterface_GetFilteredConversation db user_id keyword).1 =
        .error (.historyNotAvailable ("Unfortunately, no history was found."))
      ↔ select_all_history db user_id = [])
    ∧ (select_all_history db user_id ≠ [] →
        (HistoryInterface_GetFilteredConversation db user_id keyword).1 =
          .ok (parse_interactions
            ((allLiveInteractions db user_id).filter
              (fun i => pyIn keyword i.question || pyIn keyword i.response)))) := by
  have hmain : HistoryInterface_GetFilteredConversation db user_id keyword =
      if (select_all_history db user_id).isEmpty then
        (.error (.historyNotAvailable ("Unfortunately, no history was found.")), [.dbRead])
      else
        (.ok (parse_interactions ((allLiveInteractions db user_id).filter
          (fun i => pyIn keyword i.question || pyIn keyword i.response))), [.dbRead]) := rfl
  by_cases h : (select_all_history db user_id).isEmpty
  · have h' : select_all_history db user_id = [] := by
      cases hsel : select_all_history db user_id with
      | nil => rfl
      | cons a l => rw [hsel] at h; simp [List.isEmpty] at h
    refine ⟨by simp [hmain, h, h'], fun hne => absurd h' hne⟩
  · have h' : select_all_history db user_id ≠ [] := by
      intro he
      rw [he] at h
      simp [List.isEmpty] at h
    refine ⟨?_, fun _ => by simp [hmain, h]⟩
    simp [hmain, h, h']

/-- A duplicated interaction pair (distinct timestamps) of user `u`. -/
def interD1 : InteractionModel := ⟨"test query", "resp a", 1, none⟩

/-- The duplicate of `interD1`, written one tick later. -/
def interD2 : InteractionModel := ⟨"test query", "resp a", 2, none⟩

/-- An interaction of user `u` that matches no test keyword. -/
def interD3 : InteractionModel := ⟨"other", "thing", 3, none⟩

/-- User `u`'s history row holding the three interactions above. -/
def rowD : HistoryModel := ⟨"u", "chat-d", 0, none, [interD1, interD2, interD3]⟩

/-- A database for the keyword-filter witness. -/
def exDb3 : Db := ⟨[rowD]⟩

/-- C6 witness: over non-empty history the theorem yields both duplicates for
the lowercase keyword, and — case-sensitively — an empty (non-error) result
for the capitalised keyword. -/
theorem c6_filtered_conversation_witness :
    (HistoryInterface_GetFilteredConversation exDb3 ("u") ("test")).1 =
      .ok [⟨"test query", "resp a", "1"⟩, ⟨"test query", "resp a", "2"⟩]
    ∧ (HistoryInterface_GetFilteredConversation exDb3 ("u") ("Test")).1 = .ok [] := by
  have h1 := (c6_filtered_conversation exDb3 ("u") ("test")).2 (by decide)
  have h2 := (c6_filtered_conversation exDb3 ("u") ("Test")).2 (by decide)
  exact ⟨h1, h2⟩

/-- C3 counterexample: on an empty database — where the chat identified by
`chat_id` certainly does not exist — `AskQuestion` does not fail with
`ChatNotFound`; it submits the question to the backend (the HTTP effect is
emitted) and returns the backend's reply. -/
theorem c3_askquestion_chatnotfound_counterexample :
    (ChatInterface_AskQuestion ⟨[]⟩ backend200ok ("no-such-chat") ("uuid-a")
        ⟨"how do I list files?", "", "", ""⟩).1 = .ok (.jstr ("ok"))
    ∧ (ChatInterface_AskQuestion ⟨[]⟩ backend200ok ("no-such-chat") ("uuid-a")
        ⟨"how do I list files?", "", "", ""⟩).2.2 =
        [.httpPost ⟨"how do I list files?", "", "", ""⟩, .auditLog] := by
  exact ⟨rfl, rfl⟩

/-- C3 (amended): `AskQuestion` performs no chat lookup at all — it never
raises `ChatNotFound`, reads and writes no database state, and submits the
payload to the backend regardless of `chat_id`, propagating `RequestFailed`
unchanged. -/
theorem c3_askquestion_amended (db : Db) (backend : Nat → AttemptOutcome)
    (chat_id user_id : String) (q : Question) :
    (∀ msg, (ChatInterface_AskQuestion db backend chat_id user_id q).1 ≠
        .error (.chatNotFound msg))
    ∧ .dbRead ∉ (ChatInterface_AskQuestion db backend chat_id user_id q).2.2
    ∧ .dbWrite ∉ (ChatInterface_AskQuestion db backend chat_id user_id q).2.2
    ∧ (∀ msg, (submit backend).1 = .requestFailed msg →
        (ChatInterface_AskQuestion db backend chat_id user_id q).1 =
          .error (.requestFailed msg)) := by
  unfold ChatInterface_AskQuestion
  cases hs : (submit backend).1 with
  | ok v =>
    refine ⟨fun msg h => by simp at h, by simp, by simp, fun msg h => by simp at h⟩
  | requestFailed m =>
    refine ⟨fun msg h => by simp at h, by simp, by simp, fun msg h => ?_⟩
    injection h with hm
    subst hm
    rfl

/-- C3 witness: with a backend that replies 404 at once, `AskQuestion`
surfaces `RequestFailed` (not `ChatNotFound`), by the amended theorem. -/
theorem c3_askquestion_amended_witness :
    (ChatInterface_AskQuestion exDb backend404 ("chat-1") ("uuid-a")
        ⟨"hi", "", "", ""⟩).1 = .error (.requestFailed requestFailedMessage) :=
  (c3_askquestion_amended exDb backend404 ("chat-1") ("uuid-a")
    ⟨"hi", "", "", ""⟩).2.2.2 requestFailedMessage rfl

/-- Appending an interaction to a chat's row adds exactly that interaction to
the stored multiset. -/
theorem appendToChatRow_perm (cid : String) (it : InteractionModel) :
    ∀ hs hs', appendToChatRow cid it hs = some hs' →
      ((hs'.map (fun h => h.interactions)).flatten).Perm
        ((hs.map (fun h => h.interactions)).flatten ++ [it]) := by
  intro hs
  induction hs with
  | nil => intro hs' h; simp [appendToChatRow] at h
  | cons x rest ih =>
    intro hs' h
    unfold appendToChatRow at h
    by_cases hc : (x.deleted_at == none && x.chat_id == cid) = true
    · rw [if_pos hc] at h
      have h' := Option.some.inj h
      subst h'
      simp only [List.map_cons, List.flatten_cons, List.append_assoc]
      exact List.Perm.append_left x.interactions
        (by simpa using
          @List.perm_append_comm _ [it] ((rest.map (fun h => h.interactions)).flatten))
    · rw [if_neg hc] at h
      cases hrec : appendToChatRow cid it rest with
      | none => rw [hrec] at h; simp at h
      | some rest' =>
        rw [hrec] at h
        have h' : x :: rest' = hs' := Option.some.inj h
        subst h'
        simp only [List.map_cons, List.flatten_cons, List.append_assoc]
        exact List.Perm.append_left x.interactions (ih rest' hrec)

/-- The history write persists exactly one new interaction: the stored
multiset grows by the written question/response pair. -/
theorem localHistoryWrite_perm (db : Db) (cid uid q r : String) (now : Nat) :
    (((localHistoryWrite db cid uid q r now).histories.map
        (fun h => h.interactions)).flatten).Perm
      ((db.histories.map (fun h => h.interactions)).flatten ++ [⟨q, r, now, none⟩]) := by
  unfold localHistoryWrite
  cases happ : appendToChatRow cid ⟨q, r, now, none⟩ db.histories with
  | some hs =>
    simp only [happ]
    exact appendToChatRow_perm cid ⟨q, r, now, none⟩ db.histories hs happ
  | none =>
    simp only [happ]
    simp

/-- C4: a successful `AskQuestion` leaves the persistent chat/interaction
state unchanged and emits no database write; persistence of a
question/response pair happens only through the separate `WriteHistory`
call, which adds exactly that pair to the stored interactions. -/
theorem c4_askquestion_frame (db : Db) (backend : Nat → AttemptOutcome)
    (chat_id user_id : String) (q : Question) (res : JVal)
    (_hok : (ChatInterface_AskQuestion db backend chat_id user_id q).1 = .ok res) :
    (ChatInterface_AskQuestion db backend chat_id user_id q).2.1 = db
    ∧ .dbWrite ∉ (ChatInterface_AskQuestion db backend chat_id user_id q).2.2
    ∧ ∀ (db2 : Db) (cid uid qq rr : String) (now : Nat),
        (((HistoryInterface_WriteHistory db2 cid uid qq rr now).1.histories.map
            (fun h => h.interactions)).flatten).Perm
          ((db2.histories.map (fun h => h.interactions)).flatten ++ [⟨qq, rr, now, none⟩])
        ∧ .dbWrite ∈ (HistoryInterface_WriteHistory db2 cid uid qq rr now).2 := by
  refine ⟨?_, ?_, fun db2 cid uid qq rr now =>
    ⟨localHistoryWrite_perm db2 cid uid qq rr now, by simp [HistoryInterface_WriteHistory]⟩⟩
  · unfold ChatInterface_AskQuestion
    cases hs : (submit backend).1 with
    | ok v => rfl
    | requestFailed m => rfl
  · unfold ChatInterface_AskQuestion
    cases hs : (submit backend).1 with
    | ok v => simp
    | requestFailed m => simp

/-- C4 witness: a concrete successful `AskQuestion` on `exDb` leaves the
database untouched and performs no write, by the frame theorem. -/
theorem c4_askquestion_frame_witness :
    (ChatInterface_AskQuestion exDb backend200ok ("chat-1") ("uuid-a")
        ⟨"hi", "", "", ""⟩).2.1 = exDb
    ∧ .dbWrite ∉ (ChatInterface_AskQuestion exDb backend200ok ("chat-1") ("uuid-a")
        ⟨"hi", "", "", ""⟩).2.2 := by
  have h := c4_askquestion_frame exDb backend200ok ("chat-1") ("uuid-a")
    ⟨"hi", "", "", ""⟩ (.jstr ("ok")) rfl
  exact ⟨h.1, h.2.1⟩

/-! ## Terminal log parser (`terminal/parser.py`) -/

/-- Python `str.isspace` on the ASCII whitespace the strips can meet. -/
def isPySpace (c : Char) : Bool :=
  c == ' ' || c == '\t' || c == '\n' || c == '\r' || c == '\x0b' || c == '\x0c'

/-- Right-trim: drop trailing characters satisfying `isPySpace`. -/
def rstripList : List Char → List Char
  | [] => []
  | c :: rest =>
    match rstripList rest with
    | [] => if isPySpace c then [] else [c]
    | r => c :: r

/-- Python `str.strip()`: trim whitespace from both ends. -/
def pyStripList (l : List Char) : List Char :=
  rstripList (l.dropWhile isPySpace)

/-- Python `str.split(sep)` with a non-empty separator: cut at each
non-overlapping occurrence, scanning left to right.  `acc` is the reversed
current fragment; the fuel (always at least the input length, which every
step decreases) keeps the recursion structural, so that terms reduce. -/
def pySplitFuel (sep : List Char) : Nat → List Char → List Char → List (List Char)
  | 0, _, acc => [acc.reverse]
  | _ + 1, [], acc => [acc.reverse]
  | fuel + 1, c :: rest, acc =>
    if 0 < sep.length ∧ sep.isPrefixOf (c :: rest) then
      acc.reverse :: pySplitFuel sep fuel ((c :: rest).drop sep.length) []
    else pySplitFuel sep fuel rest (c :: acc)

/-- Python `str.split(sep)`. -/
def pySplit (sep l : List Char) : List (List Char) :=
  pySplitFuel sep l.length l []

/-- Single-character ANSI escape: the regex alternative `[@-Z\\-_]` after
`ESC`, i.e. byte ranges 0x40-0x5A and 0x5C-0x5F. -/
def isAnsiSingle (c : Char) : Bool :=
  (decide ('@' ≤ c) && decide (c ≤ 'Z')) || (decide ('\\' ≤ c) && decide (c ≤ '_'))

/-- CSI parameter byte, regex class `[0-?]`. -/
def isCsiParam (c : Char) : Bool := decide ('0' ≤ c) && decide (c ≤ '?')

/-- CSI intermediate byte: the regex class from space to slash (0x20-0x2F). -/
def isCsiInter (c : Char) : Bool := decide (' ' ≤ c) && decide (c ≤ '/')

/-- CSI final byte, regex class `[@-~]`. -/
def isCsiFinal (c : Char) : Bool := decide ('@' ≤ c) && decide (c ≤ '~')

/-- `dropWhile` never lengthens a list. -/
theorem dropWhileLenLe (p : Char → Bool) :
    ∀ l : List Char, (l.dropWhile p).length ≤ l.length := by
  intro l
  induction l with
  | nil => simp
  | cons a l ih =>
    by_cases h : p a = true
    · rw [List.dropWhile_cons, if_pos h]
      exact Nat.le_succ_of_le ih
    · rw [List.dropWhile_cons, if_neg h]

/-- Match the tail of a CSI sequence (after `ESC [`): greedily consume
parameter bytes, then intermediate bytes, then require a final byte;
return the remainder on success. -/
def csiMatch (l : List Char) : Option (List Char) :=
  match (l.dropWhile isCsiParam).dropWhile isCsiInter with
  | f :: r5 => if isCsiFinal f then some r5 else none
  | [] => none

/-- A successful CSI match consumes at least the final byte. -/
theorem csiMatch_length (l r : List Char) (h : csiMatch l = some r) :
    r.length < l.length := by
  have h3 : (l.dropWhile isCsiParam).length ≤ l.length := dropWhileLenLe _ _
  have h4 : ((l.dropWhile isCsiParam).dropWhile isCsiInter).length ≤
      (l.dropWhile isCsiParam).length := dropWhileLenLe _ _
  unfold csiMatch at h
  cases hr : (l.dropWhile isCsiParam).dropWhile isCsiInter with
  | nil => rw [hr] at h; simp at h
  | cons f r5 =>
    rw [hr] at h
    by_cases hf : isCsiFinal f = true
    · simp only [hf, if_true] at h
      have he := Option.some.inj h
      subst he
      rw [hr] at h4
      simp only [List.length_cons] at h4
      omega
    · simp [hf] at h

/-- The substitution pass of `ANSI_ESCAPE_SEQ.sub("", text)`
(`src/command_line_assistant/terminal/parser.py`, line 8): at each `ESC`
try the single-character form, then the CSI form `[` params intermediates
final; on no match the character is kept and scanning resumes at the next
position, exactly as `re.sub` does. -/
def ansiCleanFuel : Nat → List Char → List Char
  | 0, l => l
  | _ + 1, [] => []
  | fuel + 1, c :: rest =>
    if c = '\x1B' then
      match rest with
      | [] => [c]
      | d :: rest2 =>
        if isAnsiSingle d then ansiCleanFuel fuel rest2
        else if d = '[' then
          match csiMatch rest2 with
          | some r5 => ansiCleanFuel fuel r5
          | none => c :: ansiCleanFuel fuel (d :: rest2)
        else c :: ansiCleanFuel fuel (d :: rest2)
    else c :: ansiCleanFuel fuel rest

/-- The regex substitution over a whole string: the fuel (the input length,
which every step decreases) keeps the recursion structural. -/
def ansiCleanList (l : List Char) : List Char := ansiCleanFuel l.length l

/-- Embedding of `clean_ansi_sequences`
(`src/command_line_assistant/terminal/parser.py`, lines 49-52): strip ANSI
escapes, then `str.strip()`. -/
def clean_ansi_sequences (l : List Char) : List Char :=
  pyStripList (ansiCleanList l)

/-- JSON whitespace. -/
def isJsonWs (c : Char) : Bool :=
  c == ' ' || c == '\t' || c == '\n' || c == '\r'

/-- Skip JSON whitespace. -/
def skipJWs (l : List Char) : List Char := l.dropWhile isJsonWs

/-- Parse the body of a JSON string (the opening quote already consumed):
return the decoded characters and the rest after the closing quote.  Handles
the one-character escapes `json.dumps` emits for ASCII data; a `\u` escape or
a raw control character is outside the modelled grammar and fails. -/
def parseJString : List Char → Option (List Char × List Char)
  | [] => none
  | '"' :: rest => some ([], rest)
  | '\\' :: rest =>
    match rest with
    | [] => none
    | e :: rest2 =>
      let esc : Option Char :=
        if e = '"' then some '"'
        else if e = '\\' then some '\\'
        else if e = '/' then some '/'
        else if e = 'b' then some '\x08'
        else if e = 'f' then some '\x0c'
        else if e = 'n' then some '\n'
        else if e = 'r' then some '\r'
        else if e = 't' then some '\t'
        else none
      match esc with
      | none => none
      | some ch =>
        match parseJString rest2 with
        | none => none
        | some (s, r) => some (ch :: s, r)
  | c :: rest =>
    if c.toNat < 0x20 then none
    else
      match parseJString rest with
      | none => none
      | some (s, r) => some (c :: s, r)

/-- CPython dict insertion: a repeated key keeps its position and takes the
new value; a fresh key goes to the end. -/
def insertPair (fields : List (String × String)) (k v : String) :
    List (String × String) :=
  match fields with
  | [] => [(k, v)]
  | (k', v') :: rest =>
    if k' == k then (k, v) :: rest else (k', v') :: insertPair rest k v

/-- Parse the `"key": "value"` pairs of a flat JSON object, positioned just
after `\x7b` and its whitespace, accumulating into `acc`; ends at the
closing `\x7d`.  Fuelled by the input length. -/
def parseJPairs : Nat → List Char → List (String × String) →
    Option (List (String × String) × List Char)
  | 0, _, _ => none
  | fuel + 1, l, acc =>
    match l with
    | '"' :: rest =>
      match parseJString rest with
      | none => none
      | some (k, r1) =>
        match skipJWs r1 with
        | ':' :: r3 =>
          match skipJWs r3 with
          | '"' :: r5 =>
            match parseJString r5 with
            | none => none
            | some (v, r6) =>
              let acc2 := insertPair acc (String.mk k) (String.mk v)
              match skipJWs r6 with
              | ',' :: r8 => parseJPairs fuel (skipJWs r8) acc2
              | '\x7d' :: r9 => some (acc2, r9)
              | _ => none
          | _ => none
        | _ => none
    | _ => none

/-- A model of `json.loads` restricted to the documents the terminal log
holds: one flat JSON object whose keys and values are strings (what
`TerminalRecorder.write_json_block` emits), with nothing but whitespace after
it — `json.loads` raises `JSONDecodeError` on trailing data, which `none`
models.  Other JSON documents are outside the modelled input space. -/
def jsonLoadsFlat (l : List Char) : Option (List (String × String)) :=
  match skipJWs l with
  | '\x7b' :: rest =>
    match skipJWs rest with
    | '\x7d' :: r2 => if (skipJWs r2).isEmpty then some [] else none
    | r1 =>
      match parseJPairs (r1.length + 1) r1 [] with
      | none => none
      | some (fields, rest2) =>
        if (skipJWs rest2).isEmpty then some fields else none
  | _ => none

/-- The uncaught exception of the parse loop: a block that decodes to an
object without a command or output key raises `KeyError` past the
`except json.JSONDecodeError` clause. -/
inductive ParsePyErr : Type
  | keyErr : ParsePyErr
deriving DecidableEq

/-- The block loop of `parse_terminal_output`
(`src/command_line_assistant/terminal/parser.py`, lines 20-37): restore the
braces the split removed, decode, clean both fields, skip a block whose
cleaned output is exactly `exit`, and on the first `JSONDecodeError` stop and
return what was accepted so far. -/
def processBlocks : List (List Char) → Except ParsePyErr (List (List (String × String)))
  | [] => .ok []
  | block :: rest =>
    let b1 := if block.head? == some '\x7b' then block else '\x7b' :: block
    let b2 := if b1.getLast? == some '\x7d' then b1 else b1 ++ ['\x7d']
    match jsonLoadsFlat b2 with
    | none => .ok []
    | some parsed =>
      match lookupFirst parsed ("command") with
      | none => .error .keyErr
      | some cmd =>
        match lookupFirst parsed ("output") with
        | none => .error .keyErr
        | some out =>
          let cleanedCmd := String.mk (clean_ansi_sequences cmd.toList)
          let cleanedOut := String.mk (clean_ansi_sequences out.toList)
          let parsed2 :=
            insertPair (insertPair parsed ("command") cleanedCmd) ("output") cleanedOut
          if cleanedOut == "exit" then processBlocks rest
          else
            match processBlocks rest with
            | .error e => .error e
            | .ok rs => .ok (parsed2 :: rs)

/-- Embedding of `parse_terminal_output`
(`src/command_line_assistant/terminal/parser.py`, lines 11-39): a missing
log file yields `[]`; otherwise the file contents are stripped, split on the
separator `"\n\x7d\n\x7b"` — the literal in the source — and the fragments
processed.  The file is a parameter: the reader never writes it. -/
def parse_terminal_output (file : Option String) :
    Except ParsePyErr (List (List (String × String))) :=
  match file with
  | none => .ok []
  | some contents =>
    let blocks := pySplit ['\n', '\x7d', '\n', '\x7b'] (pyStripList contents.toList)
    processBlocks blocks

/-- What `TerminalRecorder.write_json_block` leaves in the log for two
recorded commands: two compact one-line JSON objects, each followed by a
newline. -/
def twoBlockLog : String :=
  "\x7b\"command\": \"ls\", \"output\": \"a\"\x7d\n\x7b\"command\": \"pwd\", \"output\": \"b\"\x7d\n"

/-- The same log with a single recorded command. -/
def oneBlockLog : String := "\x7b\"command\": \"ls\", \"output\": \"a\"\x7d\n"

/-- C8: the parser splits on `"\n\x7d\n\x7b"`, but the recorder's compact
one-line blocks abut as `"\x7d\n\x7b"` — the boundary the claim names — so on
a two-command log the separator never fires, the lone fragment fails to
decode, and the parser returns no blocks at all, where the claim promises
both blocks; a single-command log still parses.  The brace-restoring branch
("add back the curly braces … removed in the split") can never run on the
recorder's own output. -/
theorem c8_parser_split_mismatch :
    parse_terminal_output (some twoBlockLog) = .ok []
    ∧ parse_terminal_output (some oneBlockLog) =
        .ok [[(("command"), ("ls")), (("output"), ("a"))]]
    ∧ (pySplit (['\n', '\x7d', '\n', '\x7b']) (pyStripList twoBlockLog.toList)).length = 1
    ∧ (pySplit (['\x7d', '\n', '\x7b']) (pyStripList twoBlockLog.toList)).length = 2 := by
  refine ⟨rfl, rfl, rfl, rfl⟩

/-! ## Terminal recorder (`terminal/reader.py`) -/

/-- The prompt marker bytes, `PROMPT_MARKER = "%c"`
(`src/command_line_assistant/terminal/reader.py`, line 15). -/
def PROMPT_MARKER : List Char := ['%', 'c']

/-- Python `bytes.replace(marker, b"")` specialised to the two-byte prompt
marker: remove each non-overlapping occurrence, scanning left to right. -/
def removeMarker : List Char → List Char
  | '%' :: 'c' :: rest => removeMarker rest
  | c :: rest => c :: removeMarker rest
  | [] => []

/-- The recorder's mutable state
(`src/command_line_assistant/terminal/reader.py`, lines 24-34). -/
structure RecState where
  in_command : Bool
  current_command : List Char
  current_output : List Char
deriving DecidableEq

/-- The state the `TerminalRecorder` constructor sets up. -/
def initRecState : RecState := ⟨true, [], []⟩

/-- One block of the terminal log, before JSON encoding. -/
structure TermBlock where
  command : String
  output : String
deriving DecidableEq

/-- Embedding of `TerminalRecorder.write_json_block`
(`src/command_line_assistant/terminal/reader.py`, lines 36-46): when a
command has been accumulated, emit the stripped command/output pair and clear
both buffers. -/
def write_json_block (st : RecState) : RecState × List TermBlock :=
  if st.current_command.isEmpty then (st, [])
  else
    ({ st with current_command := [], current_output := [] },
      [⟨String.mk (pyStripList st.current_command),
        String.mk (pyStripList st.current_output)⟩])

/-- Embedding of `TerminalRecorder.read`
(`src/command_line_assistant/terminal/reader.py`, lines 48-75) for one chunk:
a marker in the raw chunk flushes the pending block (when in output) and
re-enters command mode; otherwise a newline while in command mode enters
output mode.  The chunk then has the marker occurrences removed and is
appended to the active buffer. -/
def TerminalRecorder_read (st : RecState) (data : List Char) :
    RecState × List TermBlock :=
  let step :=
    if containsSeq PROMPT_MARKER data then
      let flushed := if ¬ st.in_command then write_json_block st else (st, [])
      ({ flushed.1 with in_command := true }, flushed.2)
    else if st.in_command &&
        (containsSeq ['\r', '\n'] data || containsSeq ['\n'] data) then
      ({ st with in_command := false }, ([] : List TermBlock))
    else (st, [])
  let cleaned := removeMarker data
  if step.1.in_command then
    ({ step.1 with current_command := step.1.current_command ++ cleaned }, step.2)
  else
    ({ step.1 with current_output := step.1.current_output ++ cleaned }, step.2)

/-- Feed a list of chunks through the recorder, collecting emitted blocks. -/
def runRecorder : RecState → List (List Char) → RecState × List TermBlock
  | st, [] => (st, [])
  | st, d :: ds =>
    let first := TerminalRecorder_read st d
    let rest := runRecorder first.1 ds
    (rest.1, first.2 ++ rest.2)

/-- The blocks `start_capturing` writes for a chunk stream
(`src/command_line_assistant/terminal/reader.py`, lines 113-119): the blocks
emitted while reading, then the final `write_json_block`. -/
def start_capturing_blocks (chunks : List (List Char)) : List TermBlock :=
  let run := runRecorder initRecState chunks
  run.2 ++ (write_json_block run.1).2

/-- `containsSeq` on a cons unfolds to a prefix test plus the tail. -/
theorem containsSeq_cons_eq (m : List Char) (c : Char) (l : List Char) :
    containsSeq m (c :: l) = (m.isPrefixOf (c :: l) || containsSeq m l) := rfl

/-- The empty pattern occurs in every list. -/
theorem containsSeq_nil (l : List Char) : containsSeq [] l = true := by
  cases l with
  | nil => rfl
  | cons c t =>
    rw [containsSeq_cons_eq]
    simp [List.isPrefixOf]

/-- Occurrence is preserved by extending the list on the left. -/
theorem containsSeq_cons_of (m : List Char) (c : Char) (l : List Char)
    (h : containsSeq m l = true) : containsSeq m (c :: l) = true := by
  rw [containsSeq_cons_eq, h, Bool.or_true]

/-- An occurrence inside `dropWhile` is an occurrence in the original list. -/
theorem containsSeq_dropWhile (m : List Char) (p : Char → Bool) (l : List Char)
    (h : containsSeq m (l.dropWhile p) = true) : containsSeq m l = true := by
  induction l with
  | nil => simpa using h
  | cons a t ih =>
    by_cases hp : p a = true
    · rw [List.dropWhile_cons, if_pos hp] at h
      exact containsSeq_cons_of m a t (ih h)
    · rwa [List.dropWhile_cons, if_neg hp] at h

/-- A prefix of `p` is a prefix of `p ++ t`. -/
theorem prefixOf_append (m p t : List Char) (h : m.isPrefixOf p = true) :
    m.isPrefixOf (p ++ t) = true := by
  induction m generalizing p with
  | nil => simp [List.isPrefixOf]
  | cons a m' ih =>
    cases p with
    | nil => simp [List.isPrefixOf] at h
    | cons b p' =>
      simp only [List.isPrefixOf, List.cons_append, Bool.and_eq_true] at h ⊢
      exact ⟨h.1, ih p' h.2⟩

/-- An occurrence in `p` is an occurrence in `p ++ t`. -/
theorem containsSeq_append_left (m p t : List Char)
    (h : containsSeq m p = true) : containsSeq m (p ++ t) = true := by
  induction p with
  | nil =>
    have hm : m.isEmpty = true := h
    rw [List.isEmpty_iff] at hm
    subst hm
    simpa using containsSeq_nil t
  | cons c p' ih =>
    rw [containsSeq_cons_eq] at h
    rcases Bool.or_eq_true_iff.mp h with hpre | hrec
    · have hp := prefixOf_append m (c :: p') t hpre
      simp only [List.cons_append] at hp ⊢
      rw [containsSeq_cons_eq, hp, Bool.true_or]
    · simpa using containsSeq_cons_of m c (p' ++ t) (ih hrec)

/-- The right-trim is an initial segment of its input. -/
theorem rstrip_prefix (l : List Char) : ∃ t, l = rstripList l ++ t := by
  induction l with
  | nil => exact ⟨[], rfl⟩
  | cons c rest ih =>
    obtain ⟨t, ht⟩ := ih
    unfold rstripList
    cases hr : rstripList rest with
    | nil =>
      by_cases hc : isPySpace c = true
      · rw [if_pos hc]
        refine ⟨c :: rest, rfl⟩
      · rw [if_neg hc]
        rw [hr] at ht
        exact ⟨rest, by simp⟩
    | cons x xs =>
      rw [hr] at ht
      exact ⟨t, by simp [ht]⟩

/-- An occurrence in the right-trim is an occurrence in the original list. -/
theorem containsSeq_rstrip (m l : List Char)
    (h : containsSeq m (rstripList l) = true) : containsSeq m l = true := by
  obtain ⟨t, ht⟩ := rstrip_prefix l
  rw [ht]
  exact containsSeq_append_left m (rstripList l) t h

/-- An occurrence after `str.strip()` is an occurrence in the original
string. -/
theorem containsSeq_pyStrip (m l : List Char)
    (h : containsSeq m (pyStripList l) = true) : containsSeq m l = true :=
  containsSeq_dropWhile m isPySpace l
    (containsSeq_rstrip m (l.dropWhile isPySpace) h)

/-- A two-character pattern in `a ++ b` lies in `a`, lies in `b`, or spans
the boundary. -/
theorem containsSeq_append_split (x y : Char) (a b : List Char)
    (h : containsSeq [x, y] (a ++ b) = true) :
    containsSeq [x, y] a = true ∨ containsSeq [x, y] b = true ∨
      (a.getLast? = some x ∧ b.head? = some y) := by
  induction a with
  | nil => exact Or.inr (Or.inl (by simpa using h))
  | cons c a' ih =>
    rw [List.cons_append, containsSeq_cons_eq] at h
    rcases Bool.or_eq_true_iff.mp h with hpre | hrec
    · have hx : x = c ∧ List.isPrefixOf [y] (a' ++ b) = true := by
        simpa [List.isPrefixOf] using hpre
      cases a' with
      | nil =>
        right; right
        constructor
        · simp [hx.1]
        · cases b with
          | nil => simp [List.isPrefixOf] at hx
          | cons d b' =>
            have : y = d := by simpa [List.isPrefixOf] using hx.2
            simp [this]
      | cons d a'' =>
        left
        have hy : y = d := by
          have := hx.2
          simpa [List.isPrefixOf] using this
        rw [containsSeq_cons_eq]
        have : List.isPrefixOf [x, y] (c :: d :: a'') = true := by
          simp [List.isPrefixOf, hx.1, hy]
        rw [this, Bool.true_or]
    · rcases ih hrec with h1 | h2 | h3
      · exact Or.inl (containsSeq_cons_of _ c _ h1)
      · exact Or.inr (Or.inl h2)
      · cases a' with
        | nil => simp at h3
        | cons d a'' =>
          refine Or.inr (Or.inr ⟨?_, h3.2⟩)
          rw [List.getLast?_cons_cons]
          exact h3.1

/-- A buffer is safe when it holds no prompt marker and cannot complete one
on its right edge. -/
def bufSafe (l : List Char) : Prop :=
  containsSeq PROMPT_MARKER l = false ∧ l.getLast? ≠ some '%'

/-- A written block is marker-free in both fields. -/
def blockSafe (b : TermBlock) : Prop :=
  pyIn ("%c") b.command = false ∧ pyIn ("%c") b.output = false

/-- The empty buffer is safe. -/
theorem bufSafe_nil : bufSafe [] := by
  constructor
  · rfl
  · simp

/-- Appending a safe chunk to a safe buffer keeps it safe: no marker lies in
either part, and none spans the boundary because the left part does not end
with the marker's first byte. -/
theorem bufSafe_append {a b : List Char} (ha : bufSafe a) (hb : bufSafe b) :
    bufSafe (a ++ b) := by
  have ha1 : containsSeq ['%', 'c'] a = false := ha.1
  have hb1 : containsSeq ['%', 'c'] b = false := hb.1
  constructor
  · by_contra hc
    rw [Bool.not_eq_false] at hc
    rcases containsSeq_append_split '%' 'c' a b hc with h1 | h2 | h3
    · rw [ha1] at h1; cases h1
    · rw [hb1] at h2; cases h2
    · exact ha.2 h3.1
  · cases hbe : b with
    | nil => simpa using ha.2
    | cons d b' =>
      rw [List.getLast?_append_cons]
      rw [← hbe]
      exact hb.2

/-- Characters of a literal `String.mk`. -/
theorem toList_mk (l : List Char) : (String.mk l).toList = l := rfl

/-- Stripping safe buffers yields a marker-free block. -/
theorem blockSafe_of_bufSafe {cc co : List Char} (hc : bufSafe cc) (ho : bufSafe co) :
    blockSafe ⟨String.mk (pyStripList cc), String.mk (pyStripList co)⟩ := by
  constructor
  · show containsSeq ("%c").toList (String.mk (pyStripList cc)).toList = false
    rw [toList_mk]
    by_contra h
    rw [Bool.not_eq_false] at h
    have hstr := containsSeq_pyStrip _ _ h
    have hc1 : containsSeq ("%c").data cc = false := hc.1
    rw [hc1] at hstr
    cases hstr
  · show containsSeq ("%c").toList (String.mk (pyStripList co)).toList = false
    rw [toList_mk]
    by_contra h
    rw [Bool.not_eq_false] at h
    have hstr := containsSeq_pyStrip _ _ h
    have ho1 : containsSeq ("%c").data co = false := ho.1
    rw [ho1] at hstr
    cases hstr

/-- Flushing preserves buffer safety and only emits marker-free blocks. -/
theorem write_json_block_safe (st : RecState)
    (hc : bufSafe st.current_command) (ho : bufSafe st.current_output) :
    bufSafe (write_json_block st).1.current_command
    ∧ bufSafe (write_json_block st).1.current_output
    ∧ ∀ b ∈ (write_json_block st).2, blockSafe b := by
  unfold write_json_block
  by_cases he : st.current_command.isEmpty
  · simp only [he, if_true]
    exact ⟨hc, ho, by simp⟩
  · rw [if_neg he]
    refine ⟨bufSafe_nil, bufSafe_nil, ?_⟩
    intro b hb
    simp only [List.mem_singleton] at hb
    subst hb
    exact blockSafe_of_bufSafe hc ho

/-- One `read` call preserves buffer safety and only emits marker-free
blocks, provided the chunk is safe after marker removal. -/
theorem read_safe (st : RecState) (d : List Char)
    (hc : bufSafe st.current_command) (ho : bufSafe st.current_output)
    (hd : bufSafe (removeMarker d)) :
    bufSafe (TerminalRecorder_read st d).1.current_command
    ∧ bufSafe (TerminalRecorder_read st d).1.current_output
    ∧ ∀ b ∈ (TerminalRecorder_read st d).2, blockSafe b := by
  obtain ⟨hwc, hwo, hwb⟩ := write_json_block_safe st hc ho
  unfold TerminalRecorder_read
  by_cases h1 : containsSeq PROMPT_MARKER d = true
  · by_cases h2 : st.in_command = true
    · simp only [h1, if_true, h2, not_true, if_false]
      exact ⟨bufSafe_append hc hd, ho, by simp⟩
    · have hf : st.in_command = false := by simpa using h2
      simp only [h1, if_true, hf, Bool.false_eq_true, not_false_iff, if_false, ite_true]
      exact ⟨bufSafe_append hwc hd, hwo, hwb⟩
  · have hf1 : containsSeq PROMPT_MARKER d = false := by simpa using h1
    by_cases h3 : (st.in_command &&
        (containsSeq ['\r', '\n'] d || containsSeq ['\n'] d)) = true
    · simp only [hf1, Bool.false_eq_true, if_false, h3, if_true]
      exact ⟨hc, bufSafe_append ho hd, by simp⟩
    · have hf3 : (st.in_command &&
          (containsSeq ['\r', '\n'] d || containsSeq ['\n'] d)) = false := by
        simpa using h3
      simp only [hf1, hf3, Bool.false_eq_true, if_false]
      by_cases h2 : st.in_command = true
      · simp only [h2, if_true]
        exact ⟨bufSafe_append hc hd, ho, by simp⟩
      · have hf2 : st.in_command = false := by simpa using h2
        simp only [hf2, Bool.false_eq_true, if_false]
        exact ⟨hc, bufSafe_append ho hd, by simp⟩

/-- Feeding safe chunks through the recorder keeps the buffers safe and all
emitted blocks marker-free. -/
theorem runRecorder_safe (chunks : List (List Char))
    (hch : ∀ d ∈ chunks, bufSafe (removeMarker d)) :
    ∀ st, bufSafe st.current_command → bufSafe st.current_output →
      bufSafe (runRecorder st chunks).1.current_command
      ∧ bufSafe (runRecorder st chunks).1.current_output
      ∧ ∀ b ∈ (runRecorder st chunks).2, blockSafe b := by
  induction chunks with
  | nil => intro st hc ho; exact ⟨hc, ho, by simp [runRecorder]⟩
  | cons d ds ih =>
    intro st hc ho
    have hd : bufSafe (removeMarker d) := hch d (by simp)
    obtain ⟨rc, ro, rb⟩ := read_safe st d hc ho hd
    have hch' : ∀ e ∈ ds, bufSafe (removeMarker e) := fun e he => hch e (by simp [he])
    obtain ⟨ic, io, ib⟩ := ih hch' (TerminalRecorder_read st d).1 rc ro
    unfold runRecorder
    refine ⟨ic, io, ?_⟩
    intro b hb
    simp only [List.mem_append] at hb
    rcases hb with hb | hb
    · exact rb b hb
    · exact ib b hb

/-- C10 counterexample: a marker whose two bytes arrive in different read
chunks survives marker removal, so the recorder writes a JSON block whose
command field contains the marker — refuting the claimed invariant. -/
theorem c10_marker_in_block_counterexample :
    start_capturing_blocks
        [("ls %").toList, ("c echo").toList, ("\n").toList, ("%c").toList] =
      [⟨"ls %c echo", ""⟩]
    ∧ pyIn ("%c") ("ls %c echo") = true := ⟨rfl, rfl⟩

/-- C10 (amended): the recorder removes every occurrence of the prompt
marker from each chunk before accumulating it; provided removal leaves every
chunk marker-free and no removed chunk ends with the marker's first byte —
so no marker spans a chunk boundary or is re-formed by the removal — no JSON
block written to the terminal log contains the marker in its command or
output field. -/
theorem c10_marker_removed_amended (chunks : List (List Char))
    (hch : ∀ d ∈ chunks, containsSeq PROMPT_MARKER (removeMarker d) = false
      ∧ (removeMarker d).getLast? ≠ some '%') :
    ∀ b ∈ start_capturing_blocks chunks,
      pyIn ("%c") b.command = false ∧ pyIn ("%c") b.output = false := by
  have hch' : ∀ d ∈ chunks, bufSafe (removeMarker d) := hch
  obtain ⟨rc, ro, rb⟩ := runRecorder_safe chunks hch' initRecState bufSafe_nil bufSafe_nil
  obtain ⟨-, -, wb⟩ :=
    write_json_block_safe (runRecorder initRecState chunks).1 rc ro
  intro b hb
  unfold start_capturing_blocks at hb
  simp only [List.mem_append] at hb
  rcases hb with hb | hb
  · exact rb b hb
  · exact wb b hb

/-- C10 witness: a concrete session — command `ls`, output `hello`, a prompt
marker chunk — satisfies the chunk conditions, and every block the recorder
writes for it is marker-free. -/
theorem c10_marker_removed_amended_witness :
    (∀ d ∈ [("ls").toList, ("\n").toList, ("hello\n").toList, ("%c").toList],
      containsSeq PROMPT_MARKER (removeMarker d) = false
      ∧ (removeMarker d).getLast? ≠ some '%')
    ∧ ∀ b ∈ start_capturing_blocks
        [("ls").toList, ("\n").toList, ("hello\n").toList, ("%c").toList],
      pyIn ("%c") b.command = false ∧ pyIn ("%c") b.output = false := by
  have hch : ∀ d ∈ [("ls").toList, ("\n").toList, ("hello\n").toList, ("%c").toList],
      containsSeq PROMPT_MARKER (removeMarker d) = false
      ∧ (removeMarker d).getLast? ≠ some '%' := by decide
  exact ⟨hch, c10_marker_removed_amended _ hch⟩
